import Mathlib

/-!
Verification of the claims about the OWASP demonstration server in
src/index.js (an Express application with eight endpoints backed by an
embedded SQLite database).  The handlers are pure request-to-single-SQL
mappings, so each is embedded as a pure Lean function over an explicit
database state.  The bcrypt password hash and the xss sanitizer are
external npm libraries whose code is not part of this repository; they
are modelled from the spec where a claim depends on their behaviour.
-/

set_option autoImplicit false

namespace ArtigoSeguranca

/-- A row of the `users` table: `id INTEGER PRIMARY KEY AUTOINCREMENT`,
`username TEXT UNIQUE`, `password TEXT` (src/index.js lines 18-22). -/
structure User where
  id : Nat
  username : String
  password : String
deriving DecidableEq, Repr

/-- A row of the `posts` table: `id INTEGER PRIMARY KEY AUTOINCREMENT`,
`user_id INTEGER`, `content TEXT` (src/index.js lines 23-28).  The declared
`FOREIGN KEY (user_id) REFERENCES users(id)` is never enabled
(no `PRAGMA foreign_keys = ON` anywhere), so SQLite does not enforce it;
the embedding therefore places no constraint on `userId`. -/
structure Post where
  id : Nat
  userId : Int
  content : String
deriving DecidableEq, Repr

/-- The SQLite database state: the two tables plus the AUTOINCREMENT
counters that produce the next surrogate keys. -/
structure DB where
  users : List User
  posts : List Post
  nextUserId : Nat
  nextPostId : Nat
deriving DecidableEq, Repr

/-- A primitive JSON value appearing in a response object field. -/
inductive JValue where
  | s (v : String)
  | n (v : Int)
  | b (v : Bool)
deriving DecidableEq, Repr

/-- A response body as produced by `res.json(...)`: a flat JSON object
(list of field-name/value pairs), a list of post rows, or the empty body
that Express sends for `res.json(undefined)`. -/
inductive Body where
  | obj (fields : List (String × JValue))
  | rows (ps : List Post)
  | empty
deriving DecidableEq, Repr

/-- An HTTP response: status code and JSON body. -/
structure HttpResponse where
  status : Nat
  body : Body
deriving DecidableEq, Repr

/-- Outcome of the authentication middleware: pass control to the wrapped
handler (`next()`), or answer the request itself. -/
inductive AuthResult where
  | next
  | reject (status : Nat) (body : Body)
deriving DecidableEq, Repr

/-- The middleware authMiddleware (src/index.js lines 39-46): compares
`req.headers.authorization` with the literal `Bearer valid_token` using
strict equality; an absent header (`undefined`) is modelled as `none` and
never compares equal.  On mismatch it answers 401 with the JSON object
whose single field `error` holds the literal from line 44. -/
def authMiddleware (authorization : Option String) : AuthResult :=
  if authorization = some "Bearer valid_token" then AuthResult.next
  else AuthResult.reject 401 (Body.obj [("error", JValue.s "Não autorizado")])

/-- Express route wrapping: the handler runs exactly when the middleware
calls `next()`; otherwise the middleware response is the route response. -/
def withAuth (authorization : Option String) (handler : Unit → HttpResponse) : HttpResponse :=
  match authMiddleware authorization with
  | AuthResult.next => handler ()
  | AuthResult.reject s b => { status := s, body := b }

/-- The lookup `SELECT ... FROM users WHERE id = ?` followed by `.get`:
the first row whose id matches (unique, since id is the primary key). -/
def getUserById (db : DB) (n : Nat) : Option User :=
  db.users.find? (fun w => w.id = n)

/-- The full row `res.json(user)` of GET /user/:id (src/index.js line 35):
`SELECT *` yields the columns id, username, password in that order. -/
def userRowJson (u : User) : List (String × JValue) :=
  [("id", JValue.n u.id), ("username", JValue.s u.username),
   ("password", JValue.s u.password)]

/-- The projected row of GET /user/:id/secure (src/index.js line 49):
`SELECT id, username` yields only those two columns. -/
def userPublicJson (u : User) : List (String × JValue) :=
  [("id", JValue.n u.id), ("username", JValue.s u.username)]

/-- GET /user/:id (src/index.js lines 32-36).  When no row matches,
`.get` returns `undefined` and `res.json(undefined)` sends status 200
with an empty body. -/
def userRoute (db : DB) (n : Nat) : HttpResponse :=
  match getUserById db n with
  | some u => { status := 200, body := Body.obj (userRowJson u) }
  | none => { status := 200, body := Body.empty }

/-- GET /user/:id/secure (src/index.js lines 48-51): authMiddleware, then
the projected `SELECT id, username` lookup. -/
def userSecureRoute (authorization : Option String) (db : DB) (n : Nat) : HttpResponse :=
  withAuth authorization (fun _ =>
    match getUserById db n with
    | some u => { status := 200, body := Body.obj (userPublicJson u) }
    | none => { status := 200, body := Body.empty })

/-- The SqliteError message better-sqlite3 raises when the UNIQUE
constraint on users.username is violated. -/
def dupMsg : String := "UNIQUE constraint failed: users.username"

/-- The statement `INSERT INTO users (username, password) VALUES (?, ?)`
against the UNIQUE constraint on username: fails when a row with that
username already exists, otherwise appends the row under the next
AUTOINCREMENT id. -/
def insertUser (db : DB) (username password : String) : Except String DB :=
  if db.users.any (fun w => w.username = username) then
    Except.error dupMsg
  else
    Except.ok { db with
      users := db.users ++ [{ id := db.nextUserId, username := username, password := password }],
      nextUserId := db.nextUserId + 1 }

/-- POST /register/insecure (src/index.js lines 54-63): stores the
password string exactly as received; a thrown constraint error is caught
and returned as status 400 with the error message. -/
def registerInsecure (db : DB) (username password : String) : DB × HttpResponse :=
  match insertUser db username password with
  | Except.ok db' => (db', { status := 200, body := Body.obj [("success", JValue.b true)] })
  | Except.error msg => (db, { status := 400, body := Body.obj [("error", JValue.s msg)] })

/-- Splits a character list at every occurrence of the dollar character;
used to parse the fields out of a stored hash. -/
def splitDollar : List Char → List (List Char)
  | [] => [[]]
  | c :: rest =>
    let r := splitDollar rest
    if c = '$' then [] :: r
    else (c :: r.headD []) :: r.tail

/-- Maps a number to a hexadecimal digit character (of its value mod 16). -/
def hexChar (n : Nat) : Char :=
  match n % 16 with
  | 0 => '0' | 1 => '1' | 2 => '2' | 3 => '3' | 4 => '4' | 5 => '5' | 6 => '6' | 7 => '7'
  | 8 => '8' | 9 => '9' | 10 => 'a' | 11 => 'b' | 12 => 'c' | 13 => 'd' | 14 => 'e' | _ => 'f'

/-- Parses a nonempty list of decimal digit characters into a number. -/
def decValAux : List Char → Nat → Option Nat
  | [], acc => some acc
  | c :: cs, acc =>
    if c.isDigit then decValAux cs (acc * 10 + (c.toNat - 48)) else none

/-- Decimal value of a character list; `none` when empty or not all digits. -/
def decVal (cs : List Char) : Option Nat :=
  match cs with
  | [] => none
  | _ :: _ => decValAux cs 0

/-- Modelled from the spec: the key-derivation core of the bcrypt library
(an npm dependency, not part of this repository).  The spec asks for a
salted adaptive function: the key depends on every character of the salt
and is then mixed for `cost` extra rounds (the work factor). -/
def saltKey (salt : String) (cost : Nat) : Nat :=
  Nat.iterate (fun a => (a * 1103515245 + 12345) % 2147483648) cost
    (salt.data.foldl (fun a c => (a * 31 + c.toNat) % 2147483648) 5381)

/-- Modelled from the spec: the digest part of a bcrypt hash, a keyed
one-way transformation of the plaintext (each character is collapsed mod
16 through the salt-and-cost-derived key, so the plaintext is not
recoverable). -/
def bcryptDigest (salt : String) (cost : Nat) (p : String) : String :=
  String.mk (p.data.map (fun c => hexChar (c.toNat + saltKey salt cost)))

/-- Modelled from the spec: `bcrypt.hash(password, 10)` as called at
src/index.js line 69.  The library is not part of this repository; the
spec requires a salted adaptive hash whose stored form embeds the salt
and the work factor so that verification is self-describing.  The salt,
generated randomly by the real library, is an explicit parameter here;
the model delimits the fields with dollar signs in the bcrypt modular
format (the model adds one extra delimiter before the digest because its
salt is not fixed-length). -/
def bcryptHash (salt : String) (cost : Nat) (p : String) : String :=
  String.mk ('$' :: '2' :: 'b' :: '$' ::
    ((Nat.repr cost).data ++ '$' :: salt.data ++ '$' :: (bcryptDigest salt cost p).data))

/-- Modelled from the spec: `verify(plaintext, storedForm)`: parses the
salt and work factor back out of the stored form, recomputes the digest
of the plaintext, and compares; returns false (never throws) on any
malformed stored form. -/
def verify (p stored : String) : Bool :=
  match splitDollar stored.data with
  | [lead, tag, costCs, saltCs, digestCs] =>
    if lead = [] ∧ tag = ['2', 'b'] then
      match decVal costCs with
      | some cost => decide (bcryptDigest (String.mk saltCs) cost p = String.mk digestCs)
      | none => false
    else false
  | _ => false

/-- POST /register/secure (src/index.js lines 66-75): hashes the password
with work factor 10 before the insert; the salt parameter stands for the
salt the bcrypt library draws at random inside `bcrypt.hash`. -/
def registerSecure (db : DB) (username password salt : String) : DB × HttpResponse :=
  match insertUser db username (bcryptHash salt 10 password) with
  | Except.ok db' => (db', { status := 200, body := Body.obj [("success", JValue.b true)] })
  | Except.error msg => (db, { status := 400, body := Body.obj [("error", JValue.s msg)] })

/-- Modelled from the spec: the xss sanitizer (an npm dependency, not part
of this repository), as called at src/index.js line 103.  The spec asks
for an allow-list strategy under which unsafe tags are removed, not
escaped and kept; the model uses the empty allow list: every tag — a
maximal segment from an opening angle bracket through the next closing
one, or to the end when unclosed — is dropped.  The flag records whether
the scanner is inside a tag. -/
def sanitizeAux : Bool → List Char → List Char
  | _, [] => []
  | true, c :: cs => if c = '>' then sanitizeAux false cs else sanitizeAux true cs
  | false, c :: cs => if c = '<' then sanitizeAux true cs else c :: sanitizeAux false cs

/-- Modelled from the spec: `sanitize(raw)` on the secure post-creation
path. -/
def sanitize (s : String) : String :=
  String.mk (sanitizeAux false s.data)

/-- The statement `INSERT INTO posts (user_id, content) VALUES (?, ?)`:
appends a row under the next AUTOINCREMENT id.  No referential check on
`userId`: the declared foreign key is never enabled. -/
def insertPost (db : DB) (userId : Int) (content : String) : DB :=
  { db with
    posts := db.posts ++ [{ id := db.nextPostId, userId := userId, content := content }],
    nextPostId := db.nextPostId + 1 }

/-- POST /post/insecure (src/index.js lines 93-98): persists the content
exactly as received. -/
def postInsecure (db : DB) (userId : Int) (content : String) : DB × HttpResponse :=
  (insertPost db userId content,
   { status := 200, body := Body.obj [("success", JValue.b true)] })

/-- POST /post/secure (src/index.js lines 101-106): sanitizes the content,
then persists the sanitized form. -/
def postSecure (db : DB) (userId : Int) (content : String) : DB × HttpResponse :=
  (insertPost db userId (sanitize content),
   { status := 200, body := Body.obj [("success", JValue.b true)] })

/-- Checks that a query string is a well-formed decimal integer numeral:
nonempty and all digits. -/
def isDecimalNumeral (s : String) : Bool :=
  !s.data.isEmpty && s.data.all Char.isDigit

/-- GET /posts/insecure (src/index.js lines 78-83): interpolates the raw
userId query string into the SQL text.  When the string is a decimal
numeral the statement means `WHERE user_id = n` and SQLite returns the
rows with that owner in insertion order; any other string changes the
statement itself (the injection under demonstration — a syntax error or a
different query), which is outside this embedding and modelled as
`none`. -/
def getPostsInsecure (db : DB) (userId : String) : Option (List Post) :=
  match decVal userId.data with
  | some n => some (db.posts.filter (fun q => q.userId = (n : Int)))
  | none => none

/-- GET /posts/secure (src/index.js lines 86-90): binds the userId query
string as a parameter.  The `user_id` column has INTEGER affinity, so a
bound text that is an integer numeral is compared numerically; a bound
text that is not numeric can never equal an integer value, giving the
empty result. -/
def getPostsSecure (db : DB) (userId : String) : List Post :=
  match decVal userId.data with
  | some n => db.posts.filter (fun q => q.userId = (n : Int))
  | none => []

/-! ## Helper lemmas -/

@[simp] lemma data_mk (l : List Char) : (String.mk l).data = l := rfl

@[simp] lemma mk_data (s : String) : String.mk s.data = s := rfl

lemma splitDollar_ne_nil (cs : List Char) : splitDollar cs ≠ [] := by
  cases cs with
  | nil => simp [splitDollar]
  | cons c rest => by_cases h : c = '$' <;> simp [splitDollar, h]

lemma splitDollar_cons_dollar (cs : List Char) :
    splitDollar ('$' :: cs) = [] :: splitDollar cs := by
  simp [splitDollar]

lemma splitDollar_no_dollar (cs : List Char) (h : '$' ∉ cs) :
    splitDollar cs = [cs] := by
  induction cs with
  | nil => rfl
  | cons c cs ih =>
    have hc : c ≠ '$' := fun e => h (by simp [e])
    have hcs : '$' ∉ cs := fun e => h (List.mem_cons_of_mem _ e)
    simp [splitDollar, hc, ih hcs]

lemma splitDollar_append (pre suf : List Char) (h : '$' ∉ pre) :
    splitDollar (pre ++ '$' :: suf) = pre :: splitDollar suf := by
  induction pre with
  | nil => simp [splitDollar_cons_dollar]
  | cons c cs ih =>
    have hc : c ≠ '$' := fun e => h (by simp [e])
    have hcs : '$' ∉ cs := fun e => h (List.mem_cons_of_mem _ e)
    have ih2 := ih hcs
    rw [List.cons_append]
    simp [splitDollar, hc, ih2]

lemma splitDollar_two (a b : Char) (suf : List Char) (ha : a ≠ '$') (hb : b ≠ '$') :
    splitDollar (a :: b :: '$' :: suf) = [a, b] :: splitDollar suf := by
  simp [splitDollar, ha, hb]

lemma hexChar_ne_dollar (n : Nat) : hexChar n ≠ '$' := by
  unfold hexChar
  split <;> decide

lemma digest_no_dollar (salt : String) (cost : Nat) (p : String) :
    '$' ∉ (bcryptDigest salt cost p).data := by
  simp only [bcryptDigest, data_mk, List.mem_map, not_exists, not_and]
  intro c _ he
  exact hexChar_ne_dollar _ he

lemma bcryptHash_data (salt p : String) :
    (bcryptHash salt 10 p).data =
      '$' :: '2' :: 'b' :: '$' :: '1' :: '0' :: '$' ::
        (salt.data ++ '$' :: (bcryptDigest salt 10 p).data) := by
  have hrepr : (Nat.repr 10).data = ['1', '0'] := by decide
  show '$' :: '2' :: 'b' :: '$' ::
      ((Nat.repr 10).data ++ '$' :: salt.data ++ '$' :: (bcryptDigest salt 10 p).data) = _
  rw [hrepr]
  simp

lemma splitDollar_hash (salt p : String) (hs : '$' ∉ salt.data) :
    splitDollar (bcryptHash salt 10 p).data =
      [[], ['2', 'b'], ['1', '0'], salt.data, (bcryptDigest salt 10 p).data] := by
  rw [bcryptHash_data, splitDollar_cons_dollar,
    splitDollar_two '2' 'b' _ (by decide) (by decide),
    splitDollar_two '1' '0' _ (by decide) (by decide),
    splitDollar_append salt.data _ hs,
    splitDollar_no_dollar _ (digest_no_dollar salt 10 p)]

lemma verify_bcryptHash (salt p : String) (hs : '$' ∉ salt.data) :
    verify p (bcryptHash salt 10 p) = true := by
  have h1 := splitDollar_hash salt p hs
  have hdv : decVal ['1', '0'] = some 10 := by decide
  unfold verify
  rw [h1]
  simp [hdv]

lemma bcryptHash_ne (salt p : String) : bcryptHash salt 10 p ≠ p := by
  intro h
  have hlen : (bcryptHash salt 10 p).data.length = p.data.length := by rw [h]
  rw [bcryptHash_data] at hlen
  simp [bcryptDigest, List.length_append] at hlen
  omega

lemma sanitizeAux_no_lt (cs : List Char) : ∀ b : Bool, '<' ∉ sanitizeAux b cs := by
  induction cs with
  | nil => intro b; simp [sanitizeAux]
  | cons c cs ih =>
    intro b
    cases b with
    | true =>
      by_cases hc : c = '>'
      · simpa [sanitizeAux, hc] using ih false
      · simpa [sanitizeAux, hc] using ih true
    | false =>
      by_cases hc : c = '<'
      · simpa [sanitizeAux, hc] using ih true
      · simp only [sanitizeAux, hc, if_false, List.mem_cons]
        rintro (he | hm)
        · exact hc he.symm
        · exact ih false hm

lemma sanitizeAux_fixed (cs : List Char) (h : '<' ∉ cs) :
    sanitizeAux false cs = cs := by
  induction cs with
  | nil => rfl
  | cons c cs ih =>
    have hc : c ≠ '<' := fun e => h (by simp [e])
    have hcs : '<' ∉ cs := fun e => h (List.mem_cons_of_mem _ e)
    simp [sanitizeAux, hc, ih hcs]

lemma decValAux_isSome (cs : List Char) :
    cs.all Char.isDigit = true → ∀ acc : Nat, ∃ n, decValAux cs acc = some n := by
  induction cs with
  | nil => intro _ acc; exact ⟨acc, rfl⟩
  | cons c cs ih =>
    intro hall acc
    rw [List.all_cons, Bool.and_eq_true] at hall
    obtain ⟨n, hn⟩ := ih hall.2 (acc * 10 + (c.toNat - 48))
    exact ⟨n, by simp [decValAux, hall.1, hn]⟩

lemma decVal_isSome_of_numeral (s : String) (h : isDecimalNumeral s = true) :
    ∃ n, decVal s.data = some n := by
  rw [isDecimalNumeral, Bool.and_eq_true] at h
  obtain ⟨hne, hall⟩ := h
  cases hcs : s.data with
  | nil => rw [hcs] at hne; simp at hne
  | cons c cs =>
    rw [hcs] at hall
    have := decValAux_isSome (c :: cs) hall 0
    simpa [decVal] using this

/-! ## Claim theorems -/

/-- C1 counterexample: at the concrete request with no Authorization
header, the gate does answer 401, but the JSON body is the object whose
error field holds the Portuguese literal of src/index.js line 44, not the
object with the field value Unauthorized that the claim states. -/
theorem authGate_body_counterexample :
    withAuth none (fun _ => { status := 200, body := Body.empty }) ≠
      { status := 401, body := Body.obj [("error", JValue.s "Unauthorized")] } ∧
    withAuth none (fun _ => { status := 200, body := Body.empty }) =
      { status := 401, body := Body.obj [("error", JValue.s "Não autorizado")] } := by
  constructor
  · decide
  · decide

/-- C1 (amended): the Access Gate admits the request to the wrapped
handler if and only if the Authorization header value is exactly the
string Bearer valid_token; for every other value, and when the header is
absent, it responds with HTTP status 401 and the JSON body whose single
field error holds the string Não autorizado, and the wrapped handler
never runs (the response is the same whatever the handler would do). -/
theorem authGate_exact_match (a : Option String) (k : Unit → HttpResponse) :
    (authMiddleware a = AuthResult.next ↔ a = some "Bearer valid_token") ∧
    withAuth (some "Bearer valid_token") k = k () ∧
    (a ≠ some "Bearer valid_token" →
      withAuth a k =
        { status := 401, body := Body.obj [("error", JValue.s "Não autorizado")] }) := by
  refine ⟨⟨fun h => ?_, fun h => by simp [authMiddleware, h]⟩, ?_, fun h => ?_⟩
  · by_contra hne
    simp [authMiddleware, hne] at h
  · simp [withAuth, authMiddleware]
  · simp [withAuth, authMiddleware, h]

/-- C1 witness: the concrete request with no Authorization header is
rejected with status 401 and the error body of line 44. -/
theorem authGate_exact_match_witness :
    withAuth none (fun _ => { status := 200, body := Body.empty }) =
      { status := 401, body := Body.obj [("error", JValue.s "Não autorizado")] } :=
  (authGate_exact_match none (fun _ => { status := 200, body := Body.empty })).2.2
    (by decide)

/-- C2: the secure registration path stores the bcrypt hash of the
password at work factor 10 (for the salt the library drew), the stored
form verifies against the original password, and it is never literally
equal to the password. -/
theorem register_secure_hashes (db : DB) (u p salt : String)
    (hs : '$' ∉ salt.data) (h : ∀ w ∈ db.users, w.username ≠ u) :
    (registerSecure db u p salt).1.users =
      db.users ++
        [{ id := db.nextUserId, username := u, password := bcryptHash salt 10 p }] ∧
    verify p (bcryptHash salt 10 p) = true ∧
    bcryptHash salt 10 p ≠ p := by
  refine ⟨?_, verify_bcryptHash salt p hs, bcryptHash_ne salt p⟩
  have hany : db.users.any (fun w => w.username = u) = false := by
    rw [List.any_eq_false]
    intro w hw
    simp [h w hw]
  simp [registerSecure, insertUser, hany]

/-- C2 witness: registering alice with password pw123 on the empty
database stores the hash, which verifies and differs from the password. -/
theorem register_secure_hashes_witness :
    (registerSecure { users := [], posts := [], nextUserId := 1, nextPostId := 1 }
        "alice" "pw123" "saltsalt").1.users =
      [{ id := 1, username := "alice", password := bcryptHash "saltsalt" 10 "pw123" }] ∧
    verify "pw123" (bcryptHash "saltsalt" 10 "pw123") = true ∧
    bcryptHash "saltsalt" 10 "pw123" ≠ "pw123" := by
  have h := register_secure_hashes
    { users := [], posts := [], nextUserId := 1, nextPostId := 1 }
    "alice" "pw123" "saltsalt" (by decide) (by simp)
  simpa using h

/-- C3: the sanitizer of the secure post-creation path is idempotent, and
on the script payload it removes the tags outright — the result is the
bare text alert(1), which has no script-tag substring. -/
theorem sanitize_idempotent_strips :
    (∀ s : String, sanitize (sanitize s) = sanitize s) ∧
    sanitize "<script>alert(1)</script>" = "alert(1)" ∧
    ¬ "<script>".data <:+: (sanitize "<script>alert(1)</script>").data := by
  refine ⟨fun s => ?_, by decide, by decide⟩
  simp [sanitize, sanitizeAux_fixed _ (sanitizeAux_no_lt s.data false)]

/-- C4: once a registration for a username has succeeded (a row with that
username exists), a second attempt via either registration endpoint
leaves the database unchanged and answers 400 with the UNIQUE-constraint
message of the store as the JSON error body. -/
theorem register_duplicate_rejected (db : DB) (u p q salt : String)
    (h : ∃ w ∈ db.users, w.username = u) :
    registerInsecure db u p =
      (db, { status := 400, body := Body.obj [("error", JValue.s dupMsg)] }) ∧
    registerSecure db u q salt =
      (db, { status := 400, body := Body.obj [("error", JValue.s dupMsg)] }) := by
  obtain ⟨w, hw, he⟩ := h
  have hany : db.users.any (fun w => w.username = u) = true := by
    rw [List.any_eq_true]
    exact ⟨w, hw, by simp [he]⟩
  constructor
  · simp [registerInsecure, insertUser, hany]
  · simp [registerSecure, insertUser, hany]

/-- C4 witness: re-registering alice on a database already holding alice
fails with 400 and the UNIQUE-constraint message, on both endpoints. -/
theorem register_duplicate_rejected_witness :
    registerInsecure
        { users := [{ id := 1, username := "alice", password := "pw" }],
          posts := [], nextUserId := 2, nextPostId := 1 } "alice" "other" =
      ({ users := [{ id := 1, username := "alice", password := "pw" }],
         posts := [], nextUserId := 2, nextPostId := 1 },
       { status := 400, body := Body.obj [("error", JValue.s dupMsg)] }) ∧
    registerSecure
        { users := [{ id := 1, username := "alice", password := "pw" }],
          posts := [], nextUserId := 2, nextPostId := 1 } "alice" "other" "saltsalt" =
      ({ users := [{ id := 1, username := "alice", password := "pw" }],
         posts := [], nextUserId := 2, nextPostId := 1 },
       { status := 400, body := Body.obj [("error", JValue.s dupMsg)] }) :=
  register_duplicate_rejected
    { users := [{ id := 1, username := "alice", password := "pw" }],
      posts := [], nextUserId := 2, nextPostId := 1 }
    "alice" "other" "other" "saltsalt" (by decide)

/-- C5: the insecure registration path stores the input password string
exactly, with no transformation, in the new row. -/
theorem register_insecure_plaintext (db : DB) (u p : String)
    (h : ∀ w ∈ db.users, w.username ≠ u) :
    (registerInsecure db u p).1.users =
      db.users ++ [{ id := db.nextUserId, username := u, password := p }] ∧
    (registerInsecure db u p).2 =
      { status := 200, body := Body.obj [("success", JValue.b true)] } := by
  have hany : db.users.any (fun w => w.username = u) = false := by
    rw [List.any_eq_false]
    intro w hw
    simp [h w hw]
  constructor <;> simp [registerInsecure, insertUser, hany]

/-- C5 witness: registering bob with a marked password string on the
empty database stores that very string. -/
theorem register_insecure_plaintext_witness :
    (registerInsecure { users := [], posts := [], nextUserId := 1, nextPostId := 1 }
        "bob" "hunter2").1.users =
      [{ id := 1, username := "bob", password := "hunter2" }] ∧
    (registerInsecure { users := [], posts := [], nextUserId := 1, nextPostId := 1 }
        "bob" "hunter2").2 =
      { status := 200, body := Body.obj [("success", JValue.b true)] } := by
  have h := register_insecure_plaintext
    { users := [], posts := [], nextUserId := 1, nextPostId := 1 }
    "bob" "hunter2" (by simp)
  simpa using h

/-- C6: under the valid bearer token, the secure user lookup of an
existing user returns status 200 with a JSON object whose fields are
exactly id and username — in particular no password field. -/
theorem user_secure_fields (db : DB) (n : Nat) (u : User)
    (h : getUserById db n = some u) :
    userSecureRoute (some "Bearer valid_token") db n =
      { status := 200,
        body := Body.obj [("id", JValue.n u.id), ("username", JValue.s u.username)] } ∧
    (userPublicJson u).map Prod.fst = ["id", "username"] ∧
    ∀ v : JValue, ("password", v) ∉ userPublicJson u := by
  refine ⟨?_, by simp [userPublicJson], fun v => by simp [userPublicJson]⟩
  simp [userSecureRoute, withAuth, authMiddleware, h, userPublicJson]

/-- C6 witness: looking up user 1 of a one-user database with the valid
token returns only the id and username fields. -/
theorem user_secure_fields_witness :
    userSecureRoute (some "Bearer valid_token")
        { users := [{ id := 1, username := "alice", password := "pw" }],
          posts := [], nextUserId := 2, nextPostId := 1 } 1 =
      { status := 200,
        body := Body.obj [("id", JValue.n 1), ("username", JValue.s "alice")] } :=
  (user_secure_fields
    { users := [{ id := 1, username := "alice", password := "pw" }],
      posts := [], nextUserId := 2, nextPostId := 1 }
    1 { id := 1, username := "alice", password := "pw" } (by decide)).1

/-- C7: the insecure post-creation path persists the content exactly as
received, and the insecure owner query (with the owner id as the query
string) returns a result set containing that content byte for byte. -/
theorem post_insecure_roundtrip (db : DB) (uid : Nat) (content s : String)
    (h : decVal s.data = some uid) :
    (postInsecure db (uid : Int) content).1.posts =
      db.posts ++ [{ id := db.nextPostId, userId := (uid : Int), content := content }] ∧
    ∃ ps, getPostsInsecure (postInsecure db (uid : Int) content).1 s = some ps ∧
      ({ id := db.nextPostId, userId := (uid : Int), content := content } : Post) ∈ ps := by
  refine ⟨rfl, ?_⟩
  refine ⟨((db.posts ++
      [({ id := db.nextPostId, userId := (uid : Int), content := content } : Post)]).filter
        (fun q => q.userId = (uid : Int))), ?_, ?_⟩
  · simp [getPostsInsecure, postInsecure, insertPost, h]
  · simp [List.mem_filter]

/-- C7 witness: posting the marked-up payload for owner 1 and reading the
insecure owner query back with userId string 1 returns it unmodified. -/
theorem post_insecure_roundtrip_witness :
    (postInsecure { users := [], posts := [], nextUserId := 1, nextPostId := 1 }
        (1 : Int) "<img src=x onerror=alert(1)>").1.posts =
      [{ id := 1, userId := 1, content := "<img src=x onerror=alert(1)>" }] ∧
    ∃ ps, getPostsInsecure
        (postInsecure { users := [], posts := [], nextUserId := 1, nextPostId := 1 }
          (1 : Int) "<img src=x onerror=alert(1)>").1 "1" = some ps ∧
      ({ id := 1, userId := 1, content := "<img src=x onerror=alert(1)>" } : Post) ∈ ps := by
  have h := post_insecure_roundtrip
    { users := [], posts := [], nextUserId := 1, nextPostId := 1 }
    1 "<img src=x onerror=alert(1)>" "1" (by decide)
  simpa using h

/-- C8: post insertion enforces no referential integrity: even when the
owner id matches no existing user, both post-creation endpoints succeed
and the new row persists in the posts table. -/
theorem post_no_foreign_key (db : DB) (uid : Int) (content : String)
    (_h : ∀ w ∈ db.users, (w.id : Int) ≠ uid) :
    (postInsecure db uid content).2 =
      { status := 200, body := Body.obj [("success", JValue.b true)] } ∧
    ({ id := db.nextPostId, userId := uid, content := content } : Post) ∈
      (postInsecure db uid content).1.posts ∧
    (postSecure db uid content).2 =
      { status := 200, body := Body.obj [("success", JValue.b true)] } ∧
    ({ id := db.nextPostId, userId := uid, content := sanitize content } : Post) ∈
      (postSecure db uid content).1.posts := by
  refine ⟨rfl, ?_, rfl, ?_⟩ <;> simp [postInsecure, postSecure, insertPost]

/-- C8 witness: a post for the dangling owner 42 on a database with no
users is created and persists. -/
theorem post_no_foreign_key_witness :
    (postInsecure { users := [], posts := [], nextUserId := 1, nextPostId := 1 }
        (42 : Int) "hello").2 =
      { status := 200, body := Body.obj [("success", JValue.b true)] } ∧
    ({ id := 1, userId := 42, content := "hello" } : Post) ∈
      (postInsecure { users := [], posts := [], nextUserId := 1, nextPostId := 1 }
        (42 : Int) "hello").1.posts :=
  ⟨(post_no_foreign_key { users := [], posts := [], nextUserId := 1, nextPostId := 1 }
      42 "hello" (by simp)).1,
   (post_no_foreign_key { users := [], posts := [], nextUserId := 1, nextPostId := 1 }
      42 "hello" (by simp)).2.1⟩

/-- C9: looking up an id present in no user row does not fail: both the
plain and the token-bearing secure user endpoints answer status 200 with
the empty body that Express sends for an undefined row. -/
theorem user_missing_empty (db : DB) (n : Nat)
    (h : ∀ w ∈ db.users, w.id ≠ n) :
    userRoute db n = { status := 200, body := Body.empty } ∧
    userSecureRoute (some "Bearer valid_token") db n =
      { status := 200, body := Body.empty } := by
  have hf : getUserById db n = none := by
    rw [getUserById, List.find?_eq_none]
    intro w hw
    simp [h w hw]
  constructor
  · simp [userRoute, hf]
  · simp [userSecureRoute, withAuth, authMiddleware, hf]

/-- C9 witness: id 2 on a database holding only user 1 yields the empty
body on both endpoints. -/
theorem user_missing_empty_witness :
    userRoute
        { users := [{ id := 1, username := "alice", password := "pw" }],
          posts := [], nextUserId := 2, nextPostId := 1 } 2 =
      { status := 200, body := Body.empty } ∧
    userSecureRoute (some "Bearer valid_token")
        { users := [{ id := 1, username := "alice", password := "pw" }],
          posts := [], nextUserId := 2, nextPostId := 1 } 2 =
      { status := 200, body := Body.empty } :=
  user_missing_empty
    { users := [{ id := 1, username := "alice", password := "pw" }],
      posts := [], nextUserId := 2, nextPostId := 1 } 2 (by decide)

/-- C10: on a query string that is a well-formed decimal integer numeral,
the interpolated insecure owner query and the parameterized secure owner
query return the same sequence of posts. -/
theorem posts_query_equivalence (db : DB) (s : String)
    (h : isDecimalNumeral s = true) :
    getPostsInsecure db s = some (getPostsSecure db s) := by
  obtain ⟨n, hn⟩ := decVal_isSome_of_numeral s h
  simp [getPostsInsecure, getPostsSecure, hn]

/-- C10 witness: for userId string 7 on a two-post database the two owner
queries agree. -/
theorem posts_query_equivalence_witness :
    getPostsInsecure
        { users := [],
          posts := [{ id := 1, userId := 7, content := "a" },
                    { id := 2, userId := 8, content := "b" }],
          nextUserId := 1, nextPostId := 3 } "7" =
      some (getPostsSecure
        { users := [],
          posts := [{ id := 1, userId := 7, content := "a" },
                    { id := 2, userId := 8, content := "b" }],
          nextUserId := 1, nextPostId := 3 } "7") :=
  posts_query_equivalence
    { users := [],
      posts := [{ id := 1, userId := 7, content := "a" },
                { id := 2, userId := 8, content := "b" }],
      nextUserId := 1, nextPostId := 3 } "7" (by decide)

end ArtigoSeguranca
